import Mathlib

/-!
# Verification of the Astro `RenderContext` request state machine

This file gives a shallow embedding of the per-request render core found in
`packages/astro/src/core/render-context.ts` (the `RenderContext` class shipped
in the repository source): route dispatch, middleware invocation, rewrite
re-entry with loop detection, cookie merging, the locals setter of the action
API context, client-address access, and the memoized locale computations.

External collaborators (the rewrite resolver, props/params resolution, the
endpoint invoker, the redirect renderer and the template renderer) are modelled
as oracle functions carried by the `Pipeline` structure, mirroring how the
source receives them from its pipeline collaborator.  The middleware chain is
deep-embedded as a small program type `MW` interpreted by the render loop, so
that concrete request scenarios are executable.

Mutation of `this` is modelled by explicit state passing over `RCState`;
a `Trace` records the observable interactions (anchor routes passed to the
rewrite resolver, render results created by page dispatch together with their
final `cancelled` flag, and how often middleware and dispatch ran), so that
"X was never invoked" and "Y was called with Z" become provable statements.
-/

namespace AstroCore

/-! ## JavaScript values for `locals` -/

/-- A JavaScript value as seen by `typeof`, used to model the `locals` setter
of `createActionAPIContext`. -/
inductive JSValue where
  | vnull
  | vundefined
  | vstring (s : String)
  | vnumber (n : Int)
  | vboolean (b : Bool)
  | vobject (id : Nat)
  | vfunction (id : Nat)
  | vsymbol (id : Nat)
  deriving Repr, DecidableEq

/-- JavaScript `typeof`.  Note `typeof null` is `"object"`. -/
def JSValue.typeof : JSValue → String
  | .vnull => "object"
  | .vundefined => "undefined"
  | .vstring _ => "string"
  | .vnumber _ => "number"
  | .vboolean _ => "boolean"
  | .vobject _ => "object"
  | .vfunction _ => "function"
  | .vsymbol _ => "symbol"

/-! ## URLs, requests, routes -/

/-- The parts of a WHATWG `URL` the render core reads. -/
structure Url where
  href : String
  pathname : String
  deriving Repr, DecidableEq

/-- The parts of a `Request` the render core reads or writes:
its URL, whether the body stream was consumed (`bodyUsed`), whether a body is
present at all (`body !== null`), the adapter-set client-address symbol, the
locals symbol the setter writes, plus method and headers carried along by
`#copyRequest`. -/
structure Request where
  url : Url
  method : String := "GET"
  headersR : List (String × String) := []
  bodyUsed : Bool := false
  hasBody : Bool := false
  clientAddressSym : Option String := none
  localsSym : Option JSValue := none
  deriving Repr, DecidableEq

/-- Route type discriminator of `RouteData.type`. -/
inductive RouteType where
  | page
  | endpoint
  | redirect
  | fallback
  deriving Repr, DecidableEq

/-- The parts of `RouteData` read by the render core: the type tag and the
route string (compared against `/404` and `/500`). -/
structure RouteData where
  rtype : RouteType
  route : String
  deriving Repr, DecidableEq

/-- Opaque component instance token; `partialFlag` models `mod.partial`. -/
structure Component where
  id : Nat := 0
  partialFlag : Bool := false
  deriving Repr, DecidableEq

/-! ## Cookie jar

Modelled from the spec: the `AstroCookies` class lives outside the
extracted sources.  Per the spec's data model, the jar is an ordered
collection of name-to-value pairs mutable via explicit `set` operations and
mergeable with cookies discovered in an intermediate response object,
last-write-wins per name, without duplicate or lost entries. -/

/-- Outgoing cookie entries of an `AstroCookies` jar, in insertion order. -/
structure CookieJar where
  entries : List (String × String) := []
  deriving Repr, DecidableEq

/-- Replace the value stored under `n` in place, or append a new entry
(JavaScript `Map.set` semantics used by the jar's outgoing map). -/
def setEntry : List (String × String) → String → String → List (String × String)
  | [], n, v => [(n, v)]
  | (m, w) :: rest, n, v =>
      if m = n then (m, v) :: rest else (m, w) :: setEntry rest n v

/-- `cookies.set(n, v)`. -/
def CookieJar.set (j : CookieJar) (n v : String) : CookieJar :=
  ⟨setEntry j.entries n v⟩

/-- Look up the value stored under `n`. -/
def CookieJar.find? (j : CookieJar) (n : String) : Option String :=
  (j.entries.find? (fun e => e.1 = n)).map (·.2)

/-- `this.merge(other)`: every outgoing entry of `other` is written into this
jar, so entries of `other` win on a name collision (last write wins). -/
def CookieJar.merge (j other : CookieJar) : CookieJar :=
  other.entries.foldl (fun acc e => acc.set e.1 e.2) j

/-- The cookie names of a jar are pairwise distinct (the jar's outgoing store
is a map keyed by name). -/
def namesNodup (j : CookieJar) : Prop :=
  (j.entries.map Prod.fst).Nodup

instance (j : CookieJar) : Decidable (namesNodup j) := by
  unfold namesNodup; infer_instance

/-- Modelled from the spec: serializing the jar attached to the final response
into its `Set-Cookie` headers, one header per outgoing entry. -/
def setCookieHeadersOf (j : CookieJar) : List (String × String) :=
  j.entries.map (fun e => ("Set-Cookie", e.1 ++ "=" ++ e.2))

/-! ## Responses -/

/-- Errors raised by the render core.  Constructor names follow the
`AstroErrorData` identifiers referenced by the source; `external` stands for
an exception thrown by an external collaborator; `fuelOut` is a model artifact
marking exhausted recursion fuel (never reached with adequate fuel). -/
inductive Err where
  | LocalsNotAnObject
  | RewriteWithBodyUsed
  | PrerenderClientAddressNotAvailable
  | ClientAddressNotAvailable (adapter : String)
  | StaticClientAddressNotAvailable
  | ResponseSentError
  | external (msg : String)
  | fuelOut
  deriving Repr, DecidableEq

/-- An HTTP response: status, status text, body, headers and the cookie jar
attached via the `astro.cookies` symbol (`attachCookiesToResponse`). -/
structure Response where
  status : Nat
  statusText : String := ""
  body : Option String := none
  headers : List (String × String) := []
  cookieJar : Option CookieJar := none
  deriving Repr, DecidableEq

/-- `headers.get`. -/
def headersGet (hs : List (String × String)) (k : String) : Option String :=
  (hs.find? (fun e => e.1 = k)).map (·.2)

/-- `headers.set`: replace the existing header or append. -/
def headersSet (hs : List (String × String)) (k v : String) : List (String × String) :=
  setEntry hs k v

/-- `headers.delete`. -/
def headersDelete (hs : List (String × String)) (k : String) : List (String × String) :=
  hs.filter (fun e => ¬ (e.1 = k))

/-- `response.headers.set(k, v)` on a response. -/
def Response.setHeader (r : Response) (k v : String) : Response :=
  { r with headers := headersSet r.headers k v }

/-- Modelled from the spec: `attachCookiesToResponse` stores the context's
cookie jar on the response object for the adapter to serialize. -/
def attachCookies (r : Response) (j : CookieJar) : Response :=
  { r with cookieJar := some j }

/-- Internal route-type signaling header (`ROUTE_TYPE_HEADER`). -/
def ROUTE_TYPE_HEADER : String := "X-Astro-Route-Type"

/-- Reroute-suppression signaling header (`REROUTE_DIRECTIVE_HEADER`). -/
def REROUTE_DIRECTIVE_HEADER : String := "X-Astro-Reroute"

/-- Rewrite marker header key (`REWRITE_DIRECTIVE_HEADER_KEY`). -/
def REWRITE_DIRECTIVE_HEADER_KEY : String := "X-Astro-Rewrite"

/-- Rewrite marker header value (`REWRITE_DIRECTIVE_HEADER_VALUE`). -/
def REWRITE_DIRECTIVE_HEADER_VALUE : String := "yes"

/-! ## Rewrite payloads, i18n configuration, SSR result -/

/-- A `RewritePayload`: a path string, a `URL`, or a whole `Request`. -/
inductive RewritePayload where
  | path (s : String)
  | url (u : Url)
  | req (r : Request)
  deriving Repr, DecidableEq

/-- The i18n routing strategy values the core inspects. -/
inductive I18nStrategy where
  | pathnamePrefixOtherLocales
  | domainsPrefixOtherLocales
  | other
  deriving Repr, DecidableEq

/-- The i18n configuration consumed from the pipeline. -/
structure I18nConfig where
  defaultLocale : String
  locales : List String
  strategy : I18nStrategy
  deriving Repr, DecidableEq

/-- The observable part of the `SSRResult` built by `createResult`: it starts
with `cancelled := false`; `status` snapshots the context status and
`partialFlag` snapshots `mod.partial`. -/
structure SSRResult where
  cancelled : Bool
  status : Nat
  partialFlag : Bool
  deriving Repr, DecidableEq

/-! ## Middleware programs -/

/-- Deep embedding of a middleware chain's behavior towards the API context:
set a cookie and continue, assign `locals` and continue, call
`next(payload?)` and return its response, call `ctx.rewrite(payload)` and
return its response, or short-circuit with an own response. -/
inductive MW where
  | setCookie (name value : String) (k : MW)
  | next (payload : Option RewritePayload)
  | rewrite (payload : RewritePayload)
  | respond (r : Response)
  deriving Repr, DecidableEq

/-! ## Render context state -/

/-- The mutable per-request state of a `RenderContext`, with the lazily
memoized locale fields (`#currentLocale`, `#preferredLocale`,
`#preferredLocaleList`). -/
structure RCState where
  locals : JSValue := .vobject 0
  pathname : String := "/"
  request : Request := { url := { href := "http://localhost/", pathname := "/" } }
  routeData : RouteData := { rtype := .page, route := "/" }
  status : Nat := 200
  cookies : CookieJar := {}
  params : List (String × String) := []
  url : Url := { href := "http://localhost/", pathname := "/" }
  props : List (String × String) := []
  originalRoute : RouteData := { rtype := .page, route := "/" }
  isRewriting : Bool := false
  counter : Nat := 0
  currentLocaleCache : Option String := none
  preferredLocaleCache : Option String := none
  preferredLocaleListCache : Option (List String) := none
  deriving Repr, DecidableEq

/-- The pipeline collaborator: configuration flags plus the external
collaborator functions the render core delegates to (each an oracle chosen
per scenario), and the middleware chain to run. -/
structure Pipeline where
  serverLike : Bool := true
  adapterName : Option String := none
  i18n : Option I18nConfig := none
  site : Option String := none
  middleware : MW := .next none
  getProps : RouteData → String → List (String × String) := fun _ _ => []
  getParams : RouteData → String → List (String × String) := fun _ _ => []
  tryRewrite : RewritePayload → Request → RouteData →
      Except Err (RouteData × Component × Url) :=
    fun _ _ _ => .error (.external "no route")
  renderEndpoint : Option Component → Except Err Response :=
    fun _ => .ok { status := 200 }
  renderRedirect : Response := { status := 302 }
  renderPage : Option Component → List (String × String) → Except Err Response :=
    fun _ _ => .ok { status := 200 }
  localeResolver : String → List String → Option String := fun _ _ => none
  preferredResolver : Request → List String → Option String := fun _ _ => none
  preferredListResolver : Request → List String → Option (List String) := fun _ _ => none

/-- Observable interaction trace of a render run: the anchor route passed to
each `tryRewrite` call, each `SSRResult` created by a page dispatch with its
final `cancelled` value, and counts of middleware invocations and dispatches. -/
structure Trace where
  anchors : List RouteData := []
  results : List SSRResult := []
  mwCalls : Nat := 0
  dispatches : Nat := 0
  deriving Repr, DecidableEq

/-- Output of a render step: the returned (or thrown) response, the state of
the context afterwards, and the interaction trace. -/
abbrev RenderOut := Except Err Response × RCState × Trace

/-- Output of middleware interpretation: additionally returns the jar bound by
the `const { cookies } = this` destructuring at the start of `render`, which
is the jar the final `attachCookiesToResponse` uses. -/
abbrev MWOut := Except Err Response × RCState × CookieJar × Trace

/-! ## The render core, step by step -/

/-- The fixed 508 response returned when the rewrite-loop counter reaches 4:
body `"Loop Detected"`, the statusText printed by the source, no headers and
no cookie jar (the source returns it before the post-processing steps). -/
def loopDetectedResponse : Response :=
  { status := 508
    statusText :=
      "Astro detected a loop where you tried to call the rewriting logic more than four times."
    body := some "Loop Detected" }

/-- `RenderContext.create`: builds the initial state.  The private constructor
computes the defaulted fields (`cookies = new AstroCookies(request)`, a fresh
jar with no outgoing entries; `params = getParams(routeData, pathname)`;
`url = new URL(request.url)`) and assigns `originalRoute = routeData`. -/
def RenderContext.create (pl : Pipeline) (locals : JSValue) (pathname : String)
    (request : Request) (routeData : RouteData) (status : Nat)
    (props : List (String × String)) : RCState :=
  { locals := locals, pathname := pathname, request := request
    routeData := routeData, status := status
    cookies := {}
    params := pl.getParams routeData pathname
    url := request.url
    props := props
    originalRoute := routeData
    isRewriting := false, counter := 0
    currentLocaleCache := none, preferredLocaleCache := none
    preferredLocaleListCache := none }

/-- `createResult`: the fresh `SSRResult` built by a page dispatch, created
with `cancelled: false`, snapshotting the context status and `mod.partial`. -/
def createResult (st : RCState) (comp : Option Component) : SSRResult :=
  { cancelled := false
    status := st.status
    partialFlag := (comp.map Component.partialFlag).getD false }

/-- `#copyRequest(newUrl, oldRequest)`: refuses when the body was already
consumed, otherwise builds a new `Request` on the new URL carrying over method
and headers (the fresh request's body is unread and adapter symbols are not
copied). -/
def copyRequest (newUrl : Url) (old : Request) : Except Err Request :=
  if old.bodyUsed then .error .RewriteWithBodyUsed
  else
    .ok { url := newUrl
          method := old.method
          headersR := old.headersR
          bodyUsed := false
          hasBody := old.hasBody
          clientAddressSym := none
          localsSym := none }

/-- The cookie merge performed at the end of `lastNext` for endpoint and page
dispatches: if the dispatched response carries a jar (set by a nested
rewrite), merge it into the context's jar. -/
def mergeStep (st : RCState) (resp : Response) (tr : Trace) : RenderOut :=
  match resp.cookieJar with
  | some rc => (.ok resp, { st with cookies := st.cookies.merge rc }, tr)
  | none => (.ok resp, st, tr)

/-- The dispatch switch of `lastNext` over `this.routeData.type`:
endpoint and page responses flow into the cookie-merge step; redirect and
fallback return immediately.  The page branch creates the `SSRResult`, marks
it cancelled when the template renderer throws, and tags the signaling
headers on success. -/
def dispatchStep (pl : Pipeline) (st : RCState) (comp : Option Component)
    (props : List (String × String)) (tr : Trace) : RenderOut :=
  let tr := { tr with dispatches := tr.dispatches + 1 }
  match st.routeData.rtype with
  | .endpoint =>
      match pl.renderEndpoint comp with
      | .error e => (.error e, st, tr)
      | .ok resp => mergeStep st resp tr
  | .redirect => (.ok pl.renderRedirect, st, tr)
  | .page =>
      let result := createResult st comp
      match pl.renderPage comp props with
      | .error e =>
          (.error e, st, { tr with results := tr.results ++ [{ result with cancelled := true }] })
      | .ok resp =>
          let tr := { tr with results := tr.results ++ [result] }
          let resp := resp.setHeader ROUTE_TYPE_HEADER "page"
          let resp :=
            if st.routeData.route = "/404" ∨ st.routeData.route = "/500" then
              resp.setHeader REROUTE_DIRECTIVE_HEADER "no"
            else resp
          let resp :=
            if st.isRewriting then
              resp.setHeader REWRITE_DIRECTIVE_HEADER_KEY REWRITE_DIRECTIVE_HEADER_VALUE
            else resp
          mergeStep st resp tr
  | .fallback =>
      (.ok { status := 500, headers := [(ROUTE_TYPE_HEADER, "fallback")] }, st, tr)

/-- The rewrite-payload handling at the top of `lastNext`: resolve the new
route and component through `pipeline.tryRewrite` anchored at
`this.originalRoute`, then set `routeData`, the component, `isRewriting` and
`status = 200` — and nothing else. -/
def applyMiddlewareRewrite (pl : Pipeline) (st : RCState) (p : RewritePayload)
    (tr : Trace) : Except Err (RCState × Component) × Trace :=
  let tr := { tr with anchors := tr.anchors ++ [st.originalRoute] }
  match pl.tryRewrite p st.request st.originalRoute with
  | .error e => (.error e, tr)
  | .ok (rd, c, _u) =>
      (.ok ({ st with routeData := rd, isRewriting := true, status := 200 }, c), tr)

/-- `lastNext`: optionally process a middleware-initiated rewrite payload,
then dispatch by route type. -/
def lastNextStep (pl : Pipeline) (st : RCState) (comp : Option Component)
    (props : List (String × String)) (payload : Option RewritePayload)
    (tr : Trace) : RenderOut :=
  match payload with
  | some p =>
      let out := applyMiddlewareRewrite pl st p tr
      match out.1 with
      | .error e => (.error e, st, out.2)
      | .ok sc => dispatchStep pl sc.1 (some sc.2) props out.2
  | none => dispatchStep pl st comp props tr

/-- The state-mutation phase of `#executeRewrite`, up to but excluding the
recursive `render` call: resolve the rewrite anchored at `originalRoute`,
assign `routeData`, replace `request` (the payload verbatim when it is a
`Request`, else a copy of the original pointed at the new URL), then recompute
`url`, a fresh `cookies` jar, `params` and `pathname` from the new request and
set `isRewriting = true` and `status = 200`.
On failure the already-performed mutations persist in the returned state. -/
def rewriteStateUpdate (pl : Pipeline) (st : RCState) (p : RewritePayload)
    (tr : Trace) : Except Err Component × RCState × Trace :=
  let tr := { tr with anchors := tr.anchors ++ [st.originalRoute] }
  match pl.tryRewrite p st.request st.originalRoute with
  | .error e => (.error e, st, tr)
  | .ok (rd, c, newU) =>
      let st1 := { st with routeData := rd }
      match p with
      | .req r =>
          (.ok c,
           { st1 with
              request := r
              url := r.url
              cookies := {}
              params := pl.getParams rd r.url.pathname
              pathname := r.url.pathname
              isRewriting := true
              status := 200 }, tr)
      | _ =>
          match copyRequest newU st1.request with
          | .error e => (.error e, st1, tr)
          | .ok r =>
              (.ok c,
               { st1 with
                  request := r
                  url := r.url
                  cookies := {}
                  params := pl.getParams rd r.url.pathname
                  pathname := r.url.pathname
                  isRewriting := true
                  status := 200 }, tr)

/-- Interpret a middleware program against the current render invocation.
`next` is the recursive re-entry into `render` used by `ctx.rewrite`.
The returned jar is the one the enclosing `render` destructured at entry:
cookie sets before a rewrite land in it, while a context-API rewrite replaces
the state's jar without touching the destructured binding. -/
def interpMW (next : Pipeline → RCState → Option Component → Trace → RenderOut)
    (pl : Pipeline) : MW → RCState → Option Component → List (String × String) →
    Trace → MWOut
  | .setCookie n v k, st, comp, props, tr =>
      interpMW next pl k { st with cookies := st.cookies.set n v } comp props tr
  | .next payload, st, comp, props, tr =>
      let out := lastNextStep pl st comp props payload tr
      (out.1, out.2.1, out.2.1.cookies, out.2.2)
  | .rewrite p, st, _comp, _props, tr =>
      let jar := st.cookies
      let out := rewriteStateUpdate pl st p tr
      match out.1 with
      | .error e => (.error e, out.2.1, jar, out.2.2)
      | .ok c =>
          let res := next pl out.2.1 (some c) out.2.2
          (res.1, res.2.1, jar, res.2.2)
  | .respond r, st, _comp, _props, tr => (.ok r, st, st.cookies, tr)

/-- The post-processing tail of `render` applied to the middleware outcome:
a thrown error propagates; a returned response has the internal route-type
header stripped and the destructured cookie jar attached. -/
def finishRender (out : MWOut) : RenderOut :=
  match out.1 with
  | .error e => (.error e, out.2.1, out.2.2.2)
  | .ok resp =>
      let resp :=
        if (headersGet resp.headers ROUTE_TYPE_HEADER).isSome then
          { resp with headers := headersDelete resp.headers ROUTE_TYPE_HEADER }
        else resp
      (.ok (attachCookies resp out.2.2.1), out.2.1, out.2.2.2)

/-- One invocation of `render` given `next` for rewrite re-entry: resolve
props (reusing `this.props` when non-empty), increment the loop counter and
short-circuit with the fixed 508 response when it reaches 4; otherwise run the
middleware chain and post-process its outcome. -/
def renderBody (next : Pipeline → RCState → Option Component → Trace → RenderOut)
    (pl : Pipeline) (st : RCState) (comp : Option Component) (tr : Trace) :
    RenderOut :=
  let props := if st.props.isEmpty then pl.getProps st.routeData st.pathname else st.props
  let st := { st with counter := st.counter + 1 }
  if st.counter = 4 then
    (.ok loopDetectedResponse, st, tr)
  else
    let tr := { tr with mwCalls := tr.mwCalls + 1 }
    finishRender (interpMW next pl pl.middleware st comp props tr)

/-- `RenderContext.render`, with recursion fuel: each context-API rewrite
re-enters with one unit less.  With adequate fuel the `fuelOut` branch is
never reached (the loop counter terminates the recursion first). -/
def renderGo : Nat → Pipeline → RCState → Option Component → Trace → RenderOut
  | 0, _, st, _, tr => (.error .fuelOut, st, tr)
  | fuel + 1, pl, st, comp, tr => renderBody (renderGo fuel) pl st comp tr

/-! ## API-context members -/

/-- The `locals` setter of `createActionAPIContext`: reject any value whose
`typeof` is not `"object"` with `LocalsNotAnObject` before mutating; otherwise
store it on the context and mirror it on the request's locals symbol. -/
def localsSetter (st : RCState) (v : JSValue) : Except Err Unit × RCState :=
  if v.typeof ≠ "object" then (.error .LocalsNotAnObject, st)
  else (.ok (), { st with locals := v, request := { st.request with localsSym := some v } })

/-- `RenderContext.clientAddress()`: return the adapter-set symbol when
present; on a server-like pipeline fail with the prerender error when the
body is null, or naming the adapter when one is configured; otherwise fail
with the static-site error. -/
def clientAddressM (pl : Pipeline) (req : Request) : Except Err String :=
  match req.clientAddressSym with
  | some a => .ok a
  | none =>
      if pl.serverLike then
        if req.hasBody = false then .error .PrerenderClientAddressNotAvailable
        else
          match pl.adapterName with
          | some name => .error (.ClientAddressNotAvailable name)
          | none => .error .StaticClientAddressNotAvailable
      else .error .StaticClientAddressNotAvailable

/-! ## Memoized locale computation

The returned triple is (value, state afterwards, number of calls made to the
underlying locale resolver during this access). -/

/-- `computeCurrentLocale()`: nothing without i18n config; otherwise
`this.#currentLocale ??= resolve(routeData.route) ?? resolve(url.pathname) ??
fallbackTo`, where the fallback applies only under the two
prefix-other-locales strategies.  A nullish right-hand side leaves the cache
nullish. -/
def computeCurrentLocaleM (pl : Pipeline) (st : RCState) :
    Option String × RCState × Nat :=
  match pl.i18n with
  | none => (none, st, 0)
  | some i18n =>
      let fallbackTo :=
        if i18n.strategy = .pathnamePrefixOtherLocales ∨
            i18n.strategy = .domainsPrefixOtherLocales then
          some i18n.defaultLocale
        else none
      match st.currentLocaleCache with
      | some v => (some v, st, 0)
      | none =>
          match pl.localeResolver st.routeData.route i18n.locales with
          | some v => (some v, { st with currentLocaleCache := some v }, 1)
          | none =>
              let r :=
                match pl.localeResolver st.url.pathname i18n.locales with
                | some v => some v
                | none => fallbackTo
              (r, { st with currentLocaleCache := r }, 2)

/-- `computePreferredLocale()`: nothing without i18n config; otherwise
`this.#preferredLocale ??= computePreferredLocale(request, locales)`. -/
def computePreferredLocaleM (pl : Pipeline) (st : RCState) :
    Option String × RCState × Nat :=
  match pl.i18n with
  | none => (none, st, 0)
  | some i18n =>
      match st.preferredLocaleCache with
      | some v => (some v, st, 0)
      | none =>
          let r := pl.preferredResolver st.request i18n.locales
          (r, { st with preferredLocaleCache := r }, 1)

/-- `computePreferredLocaleList()`: nothing without i18n config; otherwise
`this.#preferredLocaleList ??= computePreferredLocaleList(request, locales)`. -/
def computePreferredLocaleListM (pl : Pipeline) (st : RCState) :
    Option (List String) × RCState × Nat :=
  match pl.i18n with
  | none => (none, st, 0)
  | some i18n =>
      match st.preferredLocaleListCache with
      | some v => (some v, st, 0)
      | none =>
          let r := pl.preferredListResolver st.request i18n.locales
          (r, { st with preferredLocaleListCache := r }, 1)

/-! ## Cookie-jar lemmas -/

theorem find?_setEntry_self (l : List (String × String)) (n v : String) :
    (setEntry l n v).find? (fun e => e.1 = n) = some (n, v) := by
  induction l with
  | nil => simp [setEntry]
  | cons hd tl ih =>
      obtain ⟨m, w⟩ := hd
      by_cases hm : m = n
      · subst hm; simp [setEntry]
      · simp [setEntry, hm, ih]

theorem find?_setEntry_ne (l : List (String × String)) (n v m : String)
    (h : m ≠ n) :
    (setEntry l n v).find? (fun e => e.1 = m) = l.find? (fun e => e.1 = m) := by
  induction l with
  | nil =>
      have hnm : ¬ n = m := fun hh => h hh.symm
      simp [setEntry, hnm]
  | cons hd tl ih =>
      obtain ⟨a, b⟩ := hd
      by_cases ha : a = n
      · subst ha
        have ham : ¬ (a = m) := fun hh => h (hh.symm)
        simp [setEntry, ham]
      · by_cases ham : a = m
        · subst ham; simp [setEntry, ha]
        · simp [setEntry, ha, ham, ih]

theorem CookieJar.find?_set_self (j : CookieJar) (n v : String) :
    (j.set n v).find? n = some v := by
  simp [CookieJar.set, CookieJar.find?, find?_setEntry_self]

theorem CookieJar.find?_set_ne (j : CookieJar) (n v m : String) (h : m ≠ n) :
    (j.set n v).find? m = j.find? m := by
  simp [CookieJar.set, CookieJar.find?, find?_setEntry_ne _ _ _ _ h]

theorem mem_names_setEntry (l : List (String × String)) (n v x : String) :
    x ∈ (setEntry l n v).map Prod.fst ↔ x ∈ l.map Prod.fst ∨ x = n := by
  induction l with
  | nil => simp [setEntry]
  | cons hd tl ih =>
      obtain ⟨a, b⟩ := hd
      by_cases ha : a = n
      · subst ha; simp [setEntry]; tauto
      · simp [setEntry, ha, ih]; tauto

theorem nodup_names_setEntry (l : List (String × String)) (n v : String)
    (h : (l.map Prod.fst).Nodup) : ((setEntry l n v).map Prod.fst).Nodup := by
  induction l with
  | nil => simp [setEntry]
  | cons hd tl ih =>
      obtain ⟨a, b⟩ := hd
      simp only [List.map_cons, List.nodup_cons] at h
      by_cases ha : a = n
      · subst ha
        have hrw : setEntry ((a, b) :: tl) a v = (a, v) :: tl := by simp [setEntry]
        rw [hrw]
        simp only [List.map_cons, List.nodup_cons]
        exact h
      · simp only [setEntry, if_neg ha, List.map_cons, List.nodup_cons]
        refine ⟨?_, ih h.2⟩
        intro hmem
        rcases (mem_names_setEntry tl n v a).mp hmem with hm | hm
        · exact h.1 hm
        · exact ha hm

theorem CookieJar.nodup_set (j : CookieJar) (n v : String) (h : namesNodup j) :
    namesNodup (j.set n v) :=
  nodup_names_setEntry j.entries n v h

/-- The fold underlying `CookieJar.merge`. -/
theorem CookieJar.merge_cons (j : CookieJar) (a b : String)
    (rest : List (String × String)) :
    j.merge ⟨(a, b) :: rest⟩ = (j.set a b).merge ⟨rest⟩ := rfl

/-- Lookup on a merged jar: entries of the merged-in jar win; names it lacks
fall through to the base jar (last write wins, no lost entries).  Requires the
merged-in jar to have pairwise-distinct names, as `AstroCookies` outgoing
stores do. -/
theorem CookieJar.find?_merge (j rc : CookieJar) (hrc : namesNodup rc)
    (m : String) :
    (j.merge rc).find? m =
      match rc.find? m with
      | some w => some w
      | none => j.find? m := by
  obtain ⟨l⟩ := rc
  induction l generalizing j with
  | nil => simp [CookieJar.merge, CookieJar.find?]
  | cons hd tl ih =>
      obtain ⟨a, b⟩ := hd
      have hrc' : namesNodup (⟨tl⟩ : CookieJar) := by
        simpa [namesNodup] using (List.nodup_cons.mp (by simpa [namesNodup] using hrc)).2
      have hna : a ∉ tl.map Prod.fst :=
        (List.nodup_cons.mp (by simpa [namesNodup] using hrc)).1
      rw [CookieJar.merge_cons, ih (j.set a b) hrc']
      by_cases hm : m = a
      · subst hm
        have htl : (⟨tl⟩ : CookieJar).find? m = none := by
          rcases hf : List.find? (fun e => decide (e.1 = m)) tl with _ | e
          · simp [CookieJar.find?, hf]
          · exfalso
            have hp := List.find?_some hf
            have hmem := List.mem_of_find?_eq_some hf
            simp only [decide_eq_true_eq] at hp
            exact hna (hp ▸ List.mem_map_of_mem Prod.fst hmem)
        have hhd : (⟨(m, b) :: tl⟩ : CookieJar).find? m = some b := by
          simp [CookieJar.find?]
        rw [htl, hhd]
        simp [CookieJar.find?_set_self]
      · have hhd : (⟨(a, b) :: tl⟩ : CookieJar).find? m =
            (⟨tl⟩ : CookieJar).find? m := by
          have ham : ¬ (a = m) := fun hh => hm hh.symm
          simp [CookieJar.find?, ham]
        rw [hhd]
        rcases htl : (⟨tl⟩ : CookieJar).find? m with _ | w
        · simp [CookieJar.find?_set_ne _ _ _ _ hm]
        · simp

theorem CookieJar.nodup_merge (j rc : CookieJar) (h : namesNodup j) :
    namesNodup (j.merge rc) := by
  obtain ⟨l⟩ := rc
  induction l generalizing j with
  | nil => exact h
  | cons hd tl ih =>
      rw [show (⟨hd :: tl⟩ : CookieJar) = ⟨(hd.1, hd.2) :: tl⟩ by rfl,
        CookieJar.merge_cons]
      exact ih (j.set hd.1 hd.2) (CookieJar.nodup_set j hd.1 hd.2 h)

/-! ## Concrete fixtures for witnesses and counterexamples -/

/-- A start URL. -/
def urlW : Url := { href := "http://localhost/start", pathname := "/start" }

/-- A rewrite-target URL. -/
def urlTarget : Url := { href := "http://localhost/target", pathname := "/target" }

/-- A basic GET request with unread, absent body. -/
def reqW : Request := { url := urlW }

/-- The initially matched page route. -/
def rdStart : RouteData := { rtype := .page, route := "/start" }

/-- A page route used as rewrite target. -/
def rdTarget : RouteData := { rtype := .page, route := "/target" }

/-- A component token. -/
def compW : Component := { id := 7 }

/-- A base render-context state on the start route. -/
def stBase : RCState :=
  { routeData := rdStart, originalRoute := rdStart, request := reqW
    url := urlW, pathname := "/start" }

/-- A pipeline whose rewrite resolver always resolves to the target route. -/
def plFix : Pipeline :=
  { tryRewrite := fun _ _ _ => .ok (rdTarget, compW, urlTarget) }

/-! ## Claim C4 -/

/-- Claim C4: assigning a value whose `typeof` is not `"object"` to the API
context's `locals` setter fails synchronously with the `LocalsNotAnObject`
configuration error and performs no mutation: the state is returned
unchanged, so the previous `locals` value is retained. -/
theorem C4_locals_setter_rejects_non_object (st : RCState) (v : JSValue)
    (h : v.typeof ≠ "object") :
    localsSetter st v = (.error .LocalsNotAnObject, st) := by
  simp [localsSetter, h]

/-- Witness for claim C4 at a string value. -/
theorem C4_witness :
    JSValue.typeof (.vstring "nope") ≠ "object" ∧
      localsSetter stBase (.vstring "nope") = (.error .LocalsNotAnObject, stBase) :=
  ⟨by decide, C4_locals_setter_rejects_non_object stBase (.vstring "nope") (by decide)⟩

/-! ## Claim C10 -/

/-- Claim C10: because the check is `typeof`-based and `typeof null` is
`"object"`, assigning `null` to the `locals` setter does not throw and
replaces `locals` with `null`; values of every other non-object `typeof`
(strings, numbers, booleans, `undefined`, functions, symbols) are rejected. -/
theorem C10_null_locals_allowed (st : RCState) :
    (localsSetter st .vnull).1 = .ok ()
    ∧ (localsSetter st .vnull).2.locals = .vnull
    ∧ (∀ s, localsSetter st (.vstring s) = (.error .LocalsNotAnObject, st))
    ∧ (∀ n, localsSetter st (.vnumber n) = (.error .LocalsNotAnObject, st))
    ∧ (∀ b, localsSetter st (.vboolean b) = (.error .LocalsNotAnObject, st))
    ∧ localsSetter st .vundefined = (.error .LocalsNotAnObject, st)
    ∧ (∀ i, localsSetter st (.vfunction i) = (.error .LocalsNotAnObject, st))
    ∧ (∀ i, localsSetter st (.vsymbol i) = (.error .LocalsNotAnObject, st)) := by
  refine ⟨rfl, rfl, fun s => rfl, fun n => rfl, fun b => rfl, rfl,
    fun i => rfl, fun i => rfl⟩

/-! ## Claim C5 -/

/-- Claim C5: a page dispatch creates its render result with
`cancelled = false`; when the template renderer throws, the result's
`cancelled` flag is set to `true` before the exception is re-raised, so the
caller observes the cancelled result together with the propagated error. -/
theorem C5_page_throw_sets_cancelled (pl : Pipeline) (st : RCState)
    (comp : Option Component) (props : List (String × String)) (tr : Trace)
    (e : Err) (hpage : st.routeData.rtype = .page)
    (hthrow : pl.renderPage comp props = .error e) :
    (createResult st comp).cancelled = false
    ∧ dispatchStep pl st comp props tr =
        (.error e, st,
          { tr with
              dispatches := tr.dispatches + 1
              results := tr.results ++ [{ createResult st comp with cancelled := true }] }) := by
  refine ⟨rfl, ?_⟩
  unfold dispatchStep
  rw [hpage, hthrow]

/-- Witness pipeline for claim C5: a template renderer that throws. -/
def plThrow : Pipeline := { renderPage := fun _ _ => .error (.external "boom") }

/-- Witness for claim C5 on the start route with a throwing renderer. -/
theorem C5_witness :
    (createResult stBase (some compW)).cancelled = false
    ∧ dispatchStep plThrow stBase (some compW) [] {} =
        (.error (.external "boom"), stBase,
          { dispatches := 1
            results := [{ createResult stBase (some compW) with cancelled := true }] }) :=
  C5_page_throw_sets_cancelled plThrow stBase (some compW) [] {} (.external "boom") rfl rfl

/-! ## Claim C6 -/

/-- Claim C6: a middleware-initiated rewrite (payload passed to the terminal
`next` handler) only assigns `routeData`, the component instance, resets
`status` to 200 and sets `isRewriting`; `request`, `url`, `cookies`, `params`
and `pathname` (and everything else in the context) are left unchanged. -/
theorem C6_middleware_rewrite_frame (pl : Pipeline) (st : RCState)
    (p : RewritePayload) (tr : Trace) (rd : RouteData) (c : Component) (u : Url)
    (h : pl.tryRewrite p st.request st.originalRoute = .ok (rd, c, u)) :
    applyMiddlewareRewrite pl st p tr =
      (.ok ({ st with routeData := rd, isRewriting := true, status := 200 }, c),
        { tr with anchors := tr.anchors ++ [st.originalRoute] })
    ∧ ∀ (st' : RCState) (c' : Component),
        (applyMiddlewareRewrite pl st p tr).1 = .ok (st', c') →
        st'.request = st.request ∧ st'.url = st.url ∧ st'.cookies = st.cookies
        ∧ st'.params = st.params ∧ st'.pathname = st.pathname
        ∧ st'.locals = st.locals ∧ st'.props = st.props
        ∧ st'.counter = st.counter ∧ st'.originalRoute = st.originalRoute
        ∧ st'.routeData = rd ∧ st'.status = 200 ∧ st'.isRewriting = true
        ∧ c' = c := by
  have heq : applyMiddlewareRewrite pl st p tr =
      (.ok ({ st with routeData := rd, isRewriting := true, status := 200 }, c),
        { tr with anchors := tr.anchors ++ [st.originalRoute] }) := by
    unfold applyMiddlewareRewrite
    rw [h]
  refine ⟨heq, fun st' c' h2 => ?_⟩
  rw [heq] at h2
  simp only [Except.ok.injEq, Prod.mk.injEq] at h2
  obtain ⟨hst, hc⟩ := h2
  subst hst
  subst hc
  exact ⟨rfl, rfl, rfl, rfl, rfl, rfl, rfl, rfl, rfl, rfl, rfl, rfl, rfl⟩

/-- Witness for claim C6: a concrete middleware rewrite to the target route. -/
theorem C6_witness :
    plFix.tryRewrite (.path "/target") stBase.request stBase.originalRoute =
        .ok (rdTarget, compW, urlTarget)
    ∧ applyMiddlewareRewrite plFix stBase (.path "/target") {} =
        (.ok ({ stBase with routeData := rdTarget, isRewriting := true, status := 200 },
            compW),
          { anchors := [rdStart] }) :=
  ⟨rfl,
    (C6_middleware_rewrite_frame plFix stBase (.path "/target") {} rdTarget compW
        urlTarget rfl).1⟩

/-! ## Claim C7 -/

/-- Claim C7: a context-API rewrite whose payload is not a `Request` must
clone the original request; when the original body was already consumed the
rewrite throws `RewriteWithBodyUsed` instead of proceeding, leaving the
request in place.  When the payload is a caller-supplied `Request`, no clone
is attempted: the payload becomes the request verbatim and the consumed-body
error cannot arise even with a consumed original body. -/
theorem C7_rewrite_consumed_body (pl : Pipeline) (st : RCState) (tr : Trace)
    (rd : RouteData) (c : Component) (u : Url) :
    (∀ p : RewritePayload, (∀ r, p ≠ .req r) →
        st.request.bodyUsed = true →
        pl.tryRewrite p st.request st.originalRoute = .ok (rd, c, u) →
        (rewriteStateUpdate pl st p tr).1 = .error .RewriteWithBodyUsed
        ∧ (rewriteStateUpdate pl st p tr).2.1.request = st.request)
    ∧ (∀ r : Request,
        pl.tryRewrite (.req r) st.request st.originalRoute = .ok (rd, c, u) →
        (rewriteStateUpdate pl st (.req r) tr).1 = .ok c
        ∧ (rewriteStateUpdate pl st (.req r) tr).2.1.request = r) := by
  constructor
  · intro p hne hbody htr
    rcases p with s | u' | r
    · unfold rewriteStateUpdate
      rw [htr]
      simp [copyRequest, hbody]
    · unfold rewriteStateUpdate
      rw [htr]
      simp [copyRequest, hbody]
    · exact absurd rfl (hne r)
  · intro r htr
    unfold rewriteStateUpdate
    rw [htr]
    exact ⟨rfl, rfl⟩

/-- Witness state for claim C7: the request body was already consumed. -/
def stUsed : RCState := { stBase with request := { reqW with bodyUsed := true } }

/-- Witness for claim C7: a path rewrite on a consumed body fails with
`RewriteWithBodyUsed`, while a request-payload rewrite succeeds. -/
theorem C7_witness :
    ((rewriteStateUpdate plFix stUsed (.path "/target") {}).1 =
        .error .RewriteWithBodyUsed)
    ∧ (rewriteStateUpdate plFix stUsed (.req reqW) {}).1 = .ok compW :=
  ⟨((C7_rewrite_consumed_body plFix stUsed {} rdTarget compW urlTarget).1
      (.path "/target") (fun r => by simp) rfl rfl).1,
    ((C7_rewrite_consumed_body plFix stUsed {} rdTarget compW urlTarget).2 reqW rfl).1⟩

/-! ## Claim C8 -/

/-- A server-like pipeline with an adapter name configured. -/
def plC8cex : Pipeline := { serverLike := true, adapterName := some "node" }

/-- A request with a null (unread) body and no adapter-set address symbol. -/
def reqC8null : Request :=
  { url := { href := "http://localhost/x", pathname := "/x" }, hasBody := false }

/-- Claim C8 counterexample: on a server-like pipeline with no client-address
symbol, an adapter name present and a null request body, `clientAddress`
fails with the prerender error (`PrerenderClientAddressNotAvailable`) — not
with the error naming the adapter, and not with the static-site error
(`StaticClientAddressNotAvailable`): the null-body check fires first. -/
theorem C8_counterexample :
    clientAddressM plC8cex reqC8null = .error .PrerenderClientAddressNotAvailable
    ∧ clientAddressM plC8cex reqC8null ≠
        .error (.ClientAddressNotAvailable "node")
    ∧ clientAddressM plC8cex reqC8null ≠ .error .StaticClientAddressNotAvailable := by
  have h0 : clientAddressM plC8cex reqC8null =
      .error .PrerenderClientAddressNotAvailable := rfl
  refine ⟨h0, ?_, ?_⟩ <;> rw [h0] <;> simp

/-- Claim C8 as amended: on a server-like pipeline with no adapter-supplied
address symbol, a null (unread) body always fails with the prerender error
`PrerenderClientAddressNotAvailable`, regardless of the adapter name; the
error naming the adapter arises when an adapter name is present and the body
is non-null; the static-site error arises with no adapter name and a
non-null body. -/
theorem C8_client_address_errors_amended (pl : Pipeline) (req : Request)
    (hsym : req.clientAddressSym = none) (hsrv : pl.serverLike = true) :
    (req.hasBody = false →
        clientAddressM pl req = .error .PrerenderClientAddressNotAvailable)
    ∧ (∀ name, pl.adapterName = some name → req.hasBody = true →
        clientAddressM pl req = .error (.ClientAddressNotAvailable name))
    ∧ (pl.adapterName = none → req.hasBody = true →
        clientAddressM pl req = .error .StaticClientAddressNotAvailable) := by
  refine ⟨fun hb => ?_, fun name ha hb => ?_, fun ha hb => ?_⟩
  · simp [clientAddressM, hsym, hsrv, hb]
  · simp [clientAddressM, hsym, hsrv, hb, ha]
  · simp [clientAddressM, hsym, hsrv, hb, ha]

/-- A request with a non-null body, for the adapter branch of claim C8. -/
def reqC8body : Request :=
  { url := { href := "http://localhost/x", pathname := "/x" }, hasBody := true }

/-- Witness for the amended claim C8: the prerender error on a null body with
an adapter configured, and the adapter-naming error on a non-null body. -/
theorem C8_witness :
    clientAddressM plC8cex reqC8null = .error .PrerenderClientAddressNotAvailable
    ∧ clientAddressM plC8cex reqC8body =
        .error (.ClientAddressNotAvailable "node") :=
  ⟨(C8_client_address_errors_amended plC8cex reqC8null rfl rfl).1 rfl,
    (C8_client_address_errors_amended plC8cex reqC8body rfl rfl).2.1 "node" rfl rfl⟩

/-! ## Claim C9 -/

/-- A pipeline whose locale resolver finds no locale (e.g. no configured
locale matches the route or the URL, with a strategy that has no fallback). -/
def plC9cex : Pipeline :=
  { i18n := some { defaultLocale := "en", locales := ["en"], strategy := .other }
    localeResolver := fun _ _ => none }

/-- A fresh context state with empty locale caches. -/
def stC9cex : RCState := {}

/-- Claim C9 counterexample: when the current-locale computation yields
`undefined`, nothing is cached (`??=` re-evaluates on a nullish cache), so a
second access on the same non-rewritten context with unchanged URL invokes
the underlying locale resolver again — twice, not zero times. -/
theorem C9_counterexample :
    (computeCurrentLocaleM plC9cex
        (computeCurrentLocaleM plC9cex stC9cex).2.1).2.2 = 2
    ∧ ¬ ((computeCurrentLocaleM plC9cex
        (computeCurrentLocaleM plC9cex stC9cex).2.1).2.2 = 0) := by
  refine ⟨rfl, ?_⟩
  decide

/-- Second access on a cached current locale hits the cache. -/
theorem currentLocale_cache_eq (pl : Pipeline) (st : RCState) (i : I18nConfig)
    (hi : pl.i18n = some i) :
    (computeCurrentLocaleM pl st).2.1.currentLocaleCache =
      (computeCurrentLocaleM pl st).1 := by
  rcases hc : st.currentLocaleCache with _ | w
  · rcases hr : pl.localeResolver st.routeData.route i.locales with _ | w1
    · simp [computeCurrentLocaleM, hi, hc, hr]
    · simp [computeCurrentLocaleM, hi, hc, hr]
  · simp [computeCurrentLocaleM, hi, hc]

/-- Second access on a cached preferred locale hits the cache. -/
theorem preferredLocale_cache_eq (pl : Pipeline) (st : RCState) (i : I18nConfig)
    (hi : pl.i18n = some i) :
    (computePreferredLocaleM pl st).2.1.preferredLocaleCache =
      (computePreferredLocaleM pl st).1 := by
  rcases hc : st.preferredLocaleCache with _ | w
  · simp [computePreferredLocaleM, hi, hc]
  · simp [computePreferredLocaleM, hi, hc]

/-- Second access on a cached preferred-locale list hits the cache. -/
theorem preferredLocaleList_cache_eq (pl : Pipeline) (st : RCState)
    (i : I18nConfig) (hi : pl.i18n = some i) :
    (computePreferredLocaleListM pl st).2.1.preferredLocaleListCache =
      (computePreferredLocaleListM pl st).1 := by
  rcases hc : st.preferredLocaleListCache with _ | w
  · simp [computePreferredLocaleListM, hi, hc]
  · simp [computePreferredLocaleListM, hi, hc]

/-- Claim C9 as amended: each of the three locale values is cached once its
computation yields a non-nullish value — a later access then returns the
identical value, with the underlying resolver invoked zero times — and no
rewrite (neither the middleware-initiated nor the context-API state update)
invalidates any of the three caches.  (When the computation yields
`undefined`, nothing is cached and the resolver runs again on a later
access, as the counterexample shows.) -/
theorem C9_locale_cache_amended :
    (∀ (pl : Pipeline) (st : RCState) (v : String) (st1 : RCState) (k : Nat),
        computeCurrentLocaleM pl st = (some v, st1, k) →
        computeCurrentLocaleM pl st1 = (some v, st1, 0))
    ∧ (∀ (pl : Pipeline) (st : RCState) (v : String) (st1 : RCState) (k : Nat),
        computePreferredLocaleM pl st = (some v, st1, k) →
        computePreferredLocaleM pl st1 = (some v, st1, 0))
    ∧ (∀ (pl : Pipeline) (st : RCState) (l : List String) (st1 : RCState) (k : Nat),
        computePreferredLocaleListM pl st = (some l, st1, k) →
        computePreferredLocaleListM pl st1 = (some l, st1, 0))
    ∧ (∀ (pl : Pipeline) (st : RCState) (p : RewritePayload) (tr : Trace),
        (rewriteStateUpdate pl st p tr).2.1.currentLocaleCache = st.currentLocaleCache
        ∧ (rewriteStateUpdate pl st p tr).2.1.preferredLocaleCache =
            st.preferredLocaleCache
        ∧ (rewriteStateUpdate pl st p tr).2.1.preferredLocaleListCache =
            st.preferredLocaleListCache)
    ∧ (∀ (pl : Pipeline) (st : RCState) (p : RewritePayload) (tr : Trace)
        (st' : RCState) (c : Component),
        (applyMiddlewareRewrite pl st p tr).1 = .ok (st', c) →
        st'.currentLocaleCache = st.currentLocaleCache
        ∧ st'.preferredLocaleCache = st.preferredLocaleCache
        ∧ st'.preferredLocaleListCache = st.preferredLocaleListCache) := by
  refine ⟨?_, ?_, ?_, ?_, ?_⟩
  · intro pl st v st1 k h
    rcases hi : pl.i18n with _ | i
    · have hz : computeCurrentLocaleM pl st = (none, st, 0) := by
        unfold computeCurrentLocaleM; rw [hi]
      rw [hz] at h
      exact absurd h (by simp)
    · have h1 : (computeCurrentLocaleM pl st).1 = some v := by rw [h]
      have h2 : (computeCurrentLocaleM pl st).2.1 = st1 := by rw [h]
      have hcache : st1.currentLocaleCache = some v := by
        rw [← h1, ← h2]
        exact currentLocale_cache_eq pl st i hi
      unfold computeCurrentLocaleM
      rw [hi, hcache]
  · intro pl st v st1 k h
    rcases hi : pl.i18n with _ | i
    · have hz : computePreferredLocaleM pl st = (none, st, 0) := by
        unfold computePreferredLocaleM; rw [hi]
      rw [hz] at h
      exact absurd h (by simp)
    · have h1 : (computePreferredLocaleM pl st).1 = some v := by rw [h]
      have h2 : (computePreferredLocaleM pl st).2.1 = st1 := by rw [h]
      have hcache : st1.preferredLocaleCache = some v := by
        rw [← h1, ← h2]
        exact preferredLocale_cache_eq pl st i hi
      unfold computePreferredLocaleM
      rw [hi, hcache]
  · intro pl st l st1 k h
    rcases hi : pl.i18n with _ | i
    · have hz : computePreferredLocaleListM pl st = (none, st, 0) := by
        unfold computePreferredLocaleListM; rw [hi]
      rw [hz] at h
      exact absurd h (by simp)
    · have h1 : (computePreferredLocaleListM pl st).1 = some l := by rw [h]
      have h2 : (computePreferredLocaleListM pl st).2.1 = st1 := by rw [h]
      have hcache : st1.preferredLocaleListCache = some l := by
        rw [← h1, ← h2]
        exact preferredLocaleList_cache_eq pl st i hi
      unfold computePreferredLocaleListM
      rw [hi, hcache]
  · intro pl st p tr
    unfold rewriteStateUpdate
    rcases pl.tryRewrite p st.request st.originalRoute with e | ⟨rd, c, u⟩
    · exact ⟨rfl, rfl, rfl⟩
    · rcases p with s | u' | r
      · by_cases hb : st.request.bodyUsed <;> simp [copyRequest, hb]
      · by_cases hb : st.request.bodyUsed <;> simp [copyRequest, hb]
      · exact ⟨rfl, rfl, rfl⟩
  · intro pl st p tr st' c h
    unfold applyMiddlewareRewrite at h
    rcases htr : pl.tryRewrite p st.request st.originalRoute with e | ⟨rd, c', u⟩ <;>
      rw [htr] at h
    · exact absurd h (by simp)
    · simp only [Except.ok.injEq, Prod.mk.injEq] at h
      obtain ⟨hst, hc⟩ := h
      subst hst
      exact ⟨rfl, rfl, rfl⟩

/-- A pipeline whose locale resolver finds a locale for the start route. -/
def plC9ok : Pipeline :=
  { i18n := some { defaultLocale := "en", locales := ["en", "fr"], strategy := .other }
    localeResolver := fun pathOrRoute _ =>
      if pathOrRoute = "/start" then some "en" else none }

/-- The state after a first, caching current-locale access on `stBase`. -/
def stC9cached : RCState := { stBase with currentLocaleCache := some "en" }

/-- Witness for the amended claim C9: after a first access computed `"en"`
with one resolver call, the second access returns the identical value with
zero resolver calls. -/
theorem C9_witness :
    computeCurrentLocaleM plC9ok stBase = (some "en", stC9cached, 1)
    ∧ computeCurrentLocaleM plC9ok stC9cached = (some "en", stC9cached, 0) :=
  ⟨by decide, C9_locale_cache_amended.1 plC9ok stBase "en" stC9cached 1 (by decide)⟩

/-! ## Claim C2 -/

/-- The cookie jar attached to a returned response, if any. -/
def responseJarOf : Except Err Response → Option CookieJar
  | .ok r => r.cookieJar
  | .error _ => none

/-- Whether a render outcome is a returned response rather than a thrown
error. -/
def isOkResp : Except Err Response → Bool
  | .ok _ => true
  | .error _ => false

@[simp] theorem cookieJar_setHeader (r : Response) (k v : String) :
    (r.setHeader k v).cookieJar = r.cookieJar := rfl

@[simp] theorem cookieJar_attach (r : Response) (j : CookieJar) :
    (attachCookies r j).cookieJar = some j := rfl

theorem CookieJar.mem_setCookieHeaders (j : CookieJar) (n w : String)
    (h : j.find? n = some w) :
    ("Set-Cookie", n ++ "=" ++ w) ∈ setCookieHeadersOf j := by
  unfold CookieJar.find? at h
  rcases hf : j.entries.find? (fun x => x.1 = n) with _ | e
  · rw [hf] at h; exact absurd h (by simp)
  · rw [hf] at h
    have hw2 : e.2 = w := by simpa using h
    have hp : e.1 = n := by simpa using List.find?_some hf
    have hmem := List.mem_of_find?_eq_some hf
    unfold setCookieHeadersOf
    have hrw : ("Set-Cookie", n ++ "=" ++ w) = ("Set-Cookie", e.1 ++ "=" ++ e.2) := by
      rw [hp, hw2]
    rw [hrw]
    exact List.mem_map_of_mem _ hmem

/-- Claim C2: when the dispatched response carries rewrite-originating
cookies (a jar attached by a nested rewrite, whose own sets happened last),
`render` merges them into the context's jar and attaches the merged jar to
the final outer response.  Every cookie set during the nested rewrite is
present; a name set in both scopes has exactly one entry, with the inner
(last-written) value; names the nested rewrite did not touch keep the outer
value; no names are duplicated. -/
theorem C2_rewrite_cookie_merge (pl : Pipeline) (st : RCState)
    (comp : Option Component) (tr : Trace) (n v w : String)
    (innerJar : CookieJar) (rp : Response)
    (hmw : pl.middleware = .setCookie n v (.next none))
    (hpage : st.routeData.rtype = .page)
    (hcnt : st.counter = 0)
    (hrp : ∀ props, pl.renderPage comp props = .ok rp)
    (hjar : rp.cookieJar = some innerJar)
    (hw : innerJar.find? n = some w)
    (hnd1 : namesNodup st.cookies)
    (hnd2 : namesNodup innerJar) :
    isOkResp (renderGo 1 pl st comp tr).1 = true
    ∧ responseJarOf (renderGo 1 pl st comp tr).1 =
        some ((st.cookies.set n v).merge innerJar)
    ∧ ((st.cookies.set n v).merge innerJar).find? n = some w
    ∧ namesNodup ((st.cookies.set n v).merge innerJar)
    ∧ ("Set-Cookie", n ++ "=" ++ w) ∈
        setCookieHeadersOf ((st.cookies.set n v).merge innerJar)
    ∧ (∀ m u', innerJar.find? m = some u' →
        ((st.cookies.set n v).merge innerJar).find? m = some u')
    ∧ (∀ m, innerJar.find? m = none →
        ((st.cookies.set n v).merge innerJar).find? m = (st.cookies.set n v).find? m) := by
  have hfind : ∀ m, ((st.cookies.set n v).merge innerJar).find? m =
      match innerJar.find? m with
      | some w' => some w'
      | none => (st.cookies.set n v).find? m :=
    fun m => CookieJar.find?_merge (st.cookies.set n v) innerJar hnd2 m
  refine ⟨?_, ?_, ?_, ?_, ?_, ?_, ?_⟩
  · simp [renderGo, renderBody, finishRender, interpMW, lastNextStep, dispatchStep,
      mergeStep, hmw, hpage, hcnt, hrp, hjar, isOkResp, apply_ite Response.cookieJar]
  · simp [renderGo, renderBody, finishRender, interpMW, lastNextStep, dispatchStep,
      mergeStep, hmw, hpage, hcnt, hrp, hjar, responseJarOf, apply_ite Response.cookieJar]
  · rw [hfind n, hw]
  · exact CookieJar.nodup_merge _ _ (CookieJar.nodup_set _ n v hnd1)
  · exact CookieJar.mem_setCookieHeaders _ n w (by rw [hfind n, hw])
  · intro m u' hm
    rw [hfind m, hm]
  · intro m hm
    rw [hfind m, hm]

/-- The rewrite-originating inner jar for the C2 witness (set last). -/
def innerJarW : CookieJar := ⟨[("a", "inner"), ("b", "only-inner")]⟩

/-- A dispatched response carrying the inner jar. -/
def rpW : Response := { status := 200, cookieJar := some innerJarW }

/-- Witness pipeline for C2: middleware sets cookie `a=outer` then continues;
the page render returns a response carrying the nested rewrite's jar. -/
def plC2W : Pipeline :=
  { middleware := .setCookie "a" "outer" (.next none)
    renderPage := fun _ _ => .ok rpW }

/-- Witness state for C2 with a pre-existing outer-only cookie. -/
def stC2W : RCState := { stBase with cookies := ⟨[("c", "outer-only")]⟩ }

/-- The merged jar the witness run attaches to its final response. -/
def mergedJarW : CookieJar := (stC2W.cookies.set "a" "outer").merge innerJarW

/-- Witness for claim C2: the concrete nested-rewrite cookie scenario. -/
theorem C2_witness :
    isOkResp (renderGo 1 plC2W stC2W (some compW) {}).1 = true
    ∧ responseJarOf (renderGo 1 plC2W stC2W (some compW) {}).1 = some mergedJarW
    ∧ mergedJarW.find? "a" = some "inner"
    ∧ namesNodup mergedJarW
    ∧ ("Set-Cookie", "a" ++ "=" ++ "inner") ∈ setCookieHeadersOf mergedJarW := by
  have h := C2_rewrite_cookie_merge plC2W stC2W (some compW) {} "a" "outer" "inner"
    innerJarW rpW rfl rfl rfl (fun _ => rfl) rfl (by decide) (by decide) (by decide)
  exact ⟨h.1, h.2.1, h.2.2.1, h.2.2.2.1, h.2.2.2.2.1⟩

/-! ## Claim C1 -/

/-- Whether a render outcome is the loop-detected response: a returned
response with status 508 and body `"Loop Detected"`. -/
def isLoopResponse : Except Err Response → Bool
  | .ok r => r.status == 508 && r.body == some "Loop Detected"
  | .error _ => false

@[simp] theorem status_attach (r : Response) (j : CookieJar) :
    (attachCookies r j).status = r.status := rfl

@[simp] theorem body_attach (r : Response) (j : CookieJar) :
    (attachCookies r j).body = r.body := rfl

/-- Under a middleware chain that always requests a context-API rewrite (and
a resolver that always resolves), every render invocation below the loop
threshold re-enters, and the run ends in the loop-detected 508 response. -/
theorem renderGo_loop_terminates (pl : Pipeline) (s : String) (rd : RouteData)
    (c : Component) (u : Url)
    (hmw : pl.middleware = .rewrite (.path s))
    (htr : pl.tryRewrite = fun _ _ _ => Except.ok (rd, c, u)) :
    ∀ (fuel : Nat) (st : RCState) (comp : Option Component) (tr : Trace),
      st.counter ≤ 3 → 4 ≤ st.counter + fuel → st.request.bodyUsed = false →
      isLoopResponse (renderGo fuel pl st comp tr).1 = true := by
  intro fuel
  induction fuel with
  | zero => intro st comp tr h1 h2 hb; omega
  | succ f ih =>
      intro st comp tr h1 h2 hb
      by_cases hc : st.counter = 3
      · simp [renderGo, renderBody, hc, isLoopResponse, loopDetectedResponse]
      · have hne : ¬ (st.counter + 1 = 4) := by omega
        have hup1 : (rewriteStateUpdate pl { st with counter := st.counter + 1 }
            (.path s) { tr with mwCalls := tr.mwCalls + 1 }).1 = .ok c := by
          simp [rewriteStateUpdate, htr, copyRequest, hb]
        simp only [renderGo, renderBody, hmw, interpMW, hne, if_false,
          Bool.false_eq_true, if_neg]
        rw [hup1]
        simp only []
        set out2 := rewriteStateUpdate pl { st with counter := st.counter + 1 }
          (.path s) { tr with mwCalls := tr.mwCalls + 1 } with hout2
        have hl := ih out2.2.1 (some c) out2.2.2
          (by rw [hout2]; simp [rewriteStateUpdate, htr, copyRequest, hb]; omega)
          (by rw [hout2]; simp [rewriteStateUpdate, htr, copyRequest, hb]; omega)
          (by rw [hout2]; simp [rewriteStateUpdate, htr, copyRequest, hb])
        rcases hres : (renderGo f pl out2.2.1 (some c) out2.2.2).1 with e | resp
        · rw [hres] at hl
          simp [isLoopResponse] at hl
        · rw [hres] at hl
          simpa [isLoopResponse, finishRender, apply_ite Response.status,
            apply_ite Response.body, ite_self] using hl

/-- Claim C1: the loop counter is incremented before dispatch, and on the
render call where it reaches 4 the fixed 508 `"Loop Detected"` response is
returned with the middleware chain and dispatch never invoked (the trace is
untouched, only the counter advances).  Consequently a middleware chain that
rewrites on every invocation (so that four rewrites would occur in
succession) ends in exactly that 508 response, regardless of what the last
rewrite target would have produced. -/
theorem C1_loop_detected_508 :
    (∀ (fuel : Nat) (pl : Pipeline) (st : RCState) (comp : Option Component)
        (tr : Trace), st.counter = 3 →
        renderGo (fuel + 1) pl st comp tr =
          (.ok loopDetectedResponse, { st with counter := 4 }, tr))
    ∧ (∀ (pl : Pipeline) (st : RCState) (comp : Option Component) (tr : Trace)
        (s : String) (rd : RouteData) (c : Component) (u : Url),
        pl.middleware = .rewrite (.path s) →
        pl.tryRewrite = (fun _ _ _ => Except.ok (rd, c, u)) →
        st.counter = 0 → st.request.bodyUsed = false →
        isLoopResponse (renderGo 4 pl st comp tr).1 = true) := by
  constructor
  · intro fuel pl st comp tr hc
    simp [renderGo, renderBody, hc]
  · intro pl st comp tr s rd c u hmw htr hc hb
    exact renderGo_loop_terminates pl s rd c u hmw htr 4 st comp tr (by omega)
      (by omega) hb

/-- The always-rewriting pipeline for the C1 witness. -/
def plLoopW : Pipeline :=
  { middleware := .rewrite (.path "/target")
    tryRewrite := fun _ _ _ => .ok (rdTarget, compW, urlTarget) }

/-- A state whose counter is about to reach the loop threshold. -/
def st3W : RCState := { stBase with counter := 3 }

/-- Witness for claim C1: the threshold render returns the fixed 508 without
touching the trace, and a four-deep rewrite chain ends in the 508. -/
theorem C1_witness :
    renderGo 1 plLoopW st3W none {} =
      (.ok loopDetectedResponse, { st3W with counter := 4 }, {})
    ∧ isLoopResponse (renderGo 4 plLoopW stBase none {}).1 = true :=
  ⟨C1_loop_detected_508.1 0 plLoopW st3W none {} rfl,
    C1_loop_detected_508.2 plLoopW stBase none {} "/target" rdTarget compW
      urlTarget rfl rfl rfl rfl⟩

/-! ## Claim C3 -/

theorem mergeStep_frame (st : RCState) (resp : Response) (tr : Trace) :
    (mergeStep st resp tr).2.1.originalRoute = st.originalRoute
    ∧ (mergeStep st resp tr).2.2 = tr := by
  rcases h : resp.cookieJar with _ | rc <;> simp [mergeStep, h]

theorem dispatchStep_frame (pl : Pipeline) (st : RCState) (comp : Option Component)
    (props : List (String × String)) (tr : Trace) :
    (dispatchStep pl st comp props tr).2.1.originalRoute = st.originalRoute
    ∧ (dispatchStep pl st comp props tr).2.2.anchors = tr.anchors := by
  unfold dispatchStep
  rcases hrt : st.routeData.rtype with _ | _ | _ | _
  · rcases hp : pl.renderPage comp props with e | resp
    · simp [hp]
    · simp only [hp]
      refine ⟨(mergeStep_frame st _ _).1, ?_⟩
      rw [(mergeStep_frame st _ _).2]
  · rcases he : pl.renderEndpoint comp with e | resp
    · simp [he]
    · simp only [he]
      refine ⟨(mergeStep_frame st _ _).1, ?_⟩
      rw [(mergeStep_frame st _ _).2]
  · exact ⟨rfl, rfl⟩
  · exact ⟨rfl, rfl⟩

theorem applyMiddlewareRewrite_frame (pl : Pipeline) (st : RCState)
    (p : RewritePayload) (tr : Trace) :
    (applyMiddlewareRewrite pl st p tr).2.anchors = tr.anchors ++ [st.originalRoute]
    ∧ ∀ sc, (applyMiddlewareRewrite pl st p tr).1 = .ok sc →
        sc.1.originalRoute = st.originalRoute := by
  unfold applyMiddlewareRewrite
  rcases h : pl.tryRewrite p st.request st.originalRoute with e | rcu
  · exact ⟨rfl, fun sc hsc => absurd hsc (by simp)⟩
  · refine ⟨rfl, fun sc hsc => ?_⟩
    simp only [Except.ok.injEq] at hsc
    rw [← hsc]

theorem rewriteStateUpdate_frame (pl : Pipeline) (st : RCState)
    (p : RewritePayload) (tr : Trace) :
    (rewriteStateUpdate pl st p tr).2.2.anchors = tr.anchors ++ [st.originalRoute]
    ∧ (rewriteStateUpdate pl st p tr).2.1.originalRoute = st.originalRoute := by
  unfold rewriteStateUpdate
  rcases h : pl.tryRewrite p st.request st.originalRoute with e | rcu
  · exact ⟨rfl, rfl⟩
  · rcases p with s | u' | r
    · by_cases hb : st.request.bodyUsed <;> simp [copyRequest, hb]
    · by_cases hb : st.request.bodyUsed <;> simp [copyRequest, hb]
    · exact ⟨rfl, rfl⟩

theorem lastNextStep_frame (pl : Pipeline) (st : RCState) (comp : Option Component)
    (props : List (String × String)) (payload : Option RewritePayload) (tr : Trace) :
    (lastNextStep pl st comp props payload tr).2.1.originalRoute = st.originalRoute
    ∧ ∀ a ∈ (lastNextStep pl st comp props payload tr).2.2.anchors,
        a ∈ tr.anchors ∨ a = st.originalRoute := by
  rcases payload with _ | p
  · refine ⟨(dispatchStep_frame pl st comp props tr).1, fun a ha => ?_⟩
    have ha2 : a ∈ (dispatchStep pl st comp props tr).2.2.anchors := ha
    rw [(dispatchStep_frame pl st comp props tr).2] at ha2
    exact .inl ha2
  · have hstep : lastNextStep pl st comp props (some p) tr =
        (match (applyMiddlewareRewrite pl st p tr).1 with
          | .error e => (.error e, st, (applyMiddlewareRewrite pl st p tr).2)
          | .ok sc => dispatchStep pl sc.1 (some sc.2) props
              (applyMiddlewareRewrite pl st p tr).2) := rfl
    rw [hstep]
    rcases hap : (applyMiddlewareRewrite pl st p tr).1 with e | sc
    · refine ⟨rfl, fun a ha => ?_⟩
      have ha2 : a ∈ (applyMiddlewareRewrite pl st p tr).2.anchors := ha
      rw [(applyMiddlewareRewrite_frame pl st p tr).1] at ha2
      rcases List.mem_append.mp ha2 with hmem | hmem
      · exact .inl hmem
      · exact .inr (List.mem_singleton.mp hmem)
    · have hsc := (applyMiddlewareRewrite_frame pl st p tr).2 sc hap
      refine ⟨?_, fun a ha => ?_⟩
      · exact ((dispatchStep_frame pl sc.1 (some sc.2) props
          (applyMiddlewareRewrite pl st p tr).2).1).trans hsc
      · have ha2 : a ∈ (dispatchStep pl sc.1 (some sc.2) props
            (applyMiddlewareRewrite pl st p tr).2).2.2.anchors := ha
        rw [(dispatchStep_frame pl sc.1 (some sc.2) props _).2,
          (applyMiddlewareRewrite_frame pl st p tr).1] at ha2
        rcases List.mem_append.mp ha2 with hmem | hmem
        · exact .inl hmem
        · exact .inr (List.mem_singleton.mp hmem)

theorem finishRender_frame (out : MWOut) :
    (finishRender out).2.1 = out.2.1 ∧ (finishRender out).2.2 = out.2.2.2 := by
  rcases h : out.1 with e | resp <;> simp [finishRender, h]

theorem interpMW_frame (pl : Pipeline)
    (next : Pipeline → RCState → Option Component → Trace → RenderOut)
    (hnext : ∀ (st : RCState) (comp : Option Component) (tr : Trace),
      (next pl st comp tr).2.1.originalRoute = st.originalRoute
      ∧ ∀ a ∈ (next pl st comp tr).2.2.anchors,
          a ∈ tr.anchors ∨ a = st.originalRoute) :
    ∀ (mw : MW) (st : RCState) (comp : Option Component)
      (props : List (String × String)) (tr : Trace),
      (interpMW next pl mw st comp props tr).2.1.originalRoute = st.originalRoute
      ∧ ∀ a ∈ (interpMW next pl mw st comp props tr).2.2.2.anchors,
          a ∈ tr.anchors ∨ a = st.originalRoute := by
  intro mw
  induction mw with
  | setCookie n v k ih =>
      intro st comp props tr
      exact ih { st with cookies := st.cookies.set n v } comp props tr
  | next payload =>
      intro st comp props tr
      simp only [interpMW]
      exact ⟨(lastNextStep_frame pl st comp props payload tr).1,
        (lastNextStep_frame pl st comp props payload tr).2⟩
  | rewrite p =>
      intro st comp props tr
      have hstep : interpMW next pl (.rewrite p) st comp props tr =
          (match (rewriteStateUpdate pl st p tr).1 with
            | .error e => (.error e, (rewriteStateUpdate pl st p tr).2.1,
                st.cookies, (rewriteStateUpdate pl st p tr).2.2)
            | .ok c =>
                ((next pl (rewriteStateUpdate pl st p tr).2.1 (some c)
                    (rewriteStateUpdate pl st p tr).2.2).1,
                  (next pl (rewriteStateUpdate pl st p tr).2.1 (some c)
                    (rewriteStateUpdate pl st p tr).2.2).2.1,
                  st.cookies,
                  (next pl (rewriteStateUpdate pl st p tr).2.1 (some c)
                    (rewriteStateUpdate pl st p tr).2.2).2.2)) := rfl
      rw [hstep]
      rcases hr : (rewriteStateUpdate pl st p tr).1 with e | c
      · refine ⟨(rewriteStateUpdate_frame pl st p tr).2, fun a ha => ?_⟩
        have ha2 : a ∈ (rewriteStateUpdate pl st p tr).2.2.anchors := ha
        rw [(rewriteStateUpdate_frame pl st p tr).1] at ha2
        rcases List.mem_append.mp ha2 with hmem | hmem
        · exact .inl hmem
        · exact .inr (List.mem_singleton.mp hmem)
      · have hso := (rewriteStateUpdate_frame pl st p tr).2
        have hna := (rewriteStateUpdate_frame pl st p tr).1
        have hn := hnext (rewriteStateUpdate pl st p tr).2.1 (some c)
          (rewriteStateUpdate pl st p tr).2.2
        refine ⟨by rw [hn.1, hso], fun a ha => ?_⟩
        have ha2 : a ∈ (next pl (rewriteStateUpdate pl st p tr).2.1 (some c)
            (rewriteStateUpdate pl st p tr).2.2).2.2.anchors := ha
        rcases hn.2 a ha2 with hmem | hmem
        · rw [hna] at hmem
          rcases List.mem_append.mp hmem with hmem2 | hmem2
          · exact .inl hmem2
          · exact .inr (List.mem_singleton.mp hmem2)
        · rw [hso] at hmem
          exact .inr hmem
  | respond r =>
      intro st comp props tr
      exact ⟨rfl, fun a ha => .inl ha⟩

/-- `render` never changes `originalRoute`, and every anchor recorded by a
`tryRewrite` invocation during the run is the context's `originalRoute`. -/
theorem renderGo_originalRoute :
    ∀ (fuel : Nat) (pl : Pipeline) (st : RCState) (comp : Option Component)
      (tr : Trace),
      (renderGo fuel pl st comp tr).2.1.originalRoute = st.originalRoute
      ∧ ∀ a ∈ (renderGo fuel pl st comp tr).2.2.anchors,
          a ∈ tr.anchors ∨ a = st.originalRoute := by
  intro fuel
  induction fuel with
  | zero => intro pl st comp tr; exact ⟨rfl, fun a ha => .inl ha⟩
  | succ f ih =>
      intro pl st comp tr
      simp only [renderGo, renderBody]
      split
      · exact ⟨rfl, fun a ha => .inl ha⟩
      · have hi := interpMW_frame pl (renderGo f) (fun st' comp' tr' => ih pl st' comp' tr')
          pl.middleware { st with counter := st.counter + 1 } comp
          (if st.props.isEmpty then pl.getProps st.routeData st.pathname else st.props)
          { tr with mwCalls := tr.mwCalls + 1 }
        have hf := finishRender_frame (interpMW (renderGo f) pl pl.middleware
          { st with counter := st.counter + 1 } comp
          (if st.props.isEmpty then pl.getProps st.routeData st.pathname else st.props)
          { tr with mwCalls := tr.mwCalls + 1 })
        refine ⟨?_, fun a ha => ?_⟩
        · rw [hf.1]
          exact hi.1
        · rw [hf.2] at ha
          exact hi.2 a ha

/-- Claim C3: `originalRoute` is assigned exactly once, at construction, from
the first matched route; `render` (over any number of rewrites of either
kind) never reassigns it; and every invocation of the rewrite resolver
receives `originalRoute` as its anchor route — in particular, on a run
started with an empty trace, every recorded anchor equals the context's
`originalRoute`. -/
theorem C3_originalRoute_immutable_anchor :
    (∀ (pl : Pipeline) (locals : JSValue) (pathname : String) (request : Request)
        (routeData : RouteData) (status : Nat) (props : List (String × String)),
        (RenderContext.create pl locals pathname request routeData status
            props).originalRoute = routeData)
    ∧ (∀ (fuel : Nat) (pl : Pipeline) (st : RCState) (comp : Option Component)
        (tr : Trace),
        (renderGo fuel pl st comp tr).2.1.originalRoute = st.originalRoute)
    ∧ (∀ (fuel : Nat) (pl : Pipeline) (st : RCState) (comp : Option Component)
        (tr : Trace),
        ∀ a ∈ (renderGo fuel pl st comp tr).2.2.anchors,
          a ∈ tr.anchors ∨ a = st.originalRoute)
    ∧ (∀ (fuel : Nat) (pl : Pipeline) (st : RCState) (comp : Option Component),
        ∀ a ∈ (renderGo fuel pl st comp {}).2.2.anchors, a = st.originalRoute) := by
  refine ⟨fun _ _ _ _ _ _ _ => rfl, ?_, ?_, ?_⟩
  · intro fuel pl st comp tr
    exact (renderGo_originalRoute fuel pl st comp tr).1
  · intro fuel pl st comp tr
    exact (renderGo_originalRoute fuel pl st comp tr).2
  · intro fuel pl st comp a ha
    rcases (renderGo_originalRoute fuel pl st comp {}).2 a ha with hmem | hmem
    · exact absurd hmem (by simp [Trace.anchors])
    · exact hmem

/-- Witness for claim C3 on the always-rewriting loop run: `originalRoute`
survives the whole run and every recorded anchor equals it. -/
theorem C3_witness :
    (RenderContext.create plFix (.vobject 0) "/start" reqW rdStart 200
        []).originalRoute = rdStart
    ∧ (renderGo 4 plLoopW stBase none {}).2.1.originalRoute = stBase.originalRoute
    ∧ ∀ a ∈ (renderGo 4 plLoopW stBase none {}).2.2.anchors,
        a = stBase.originalRoute :=
  ⟨C3_originalRoute_immutable_anchor.1 plFix (.vobject 0) "/start" reqW rdStart 200 [],
    C3_originalRoute_immutable_anchor.2.1 4 plLoopW stBase none {},
    fun a ha => C3_originalRoute_immutable_anchor.2.2.2 4 plLoopW stBase none a ha⟩

end AstroCore
